import Mathlib

/-!
Verification of the résumé-PDF text-structuring pipeline
(`app/services/pdf_service.py`): the sanitizer, the line classifier and
document builder (`_parse_resume_sections` and its helpers), and the
layout decision for the two-column skills table
(`generate_resume_pdf` / `_build_skills_table`).

Python strings are modelled as Lean `String` (a list of `Char`);
Python's `str.lower`/`str.upper`/`str.isupper` are modelled over ASCII
plus the Portuguese accented letters that occur in the source's data,
which is the alphabet the program's own patterns and inputs use.
-/

namespace ResumeAI

/-! ## Character model: Python `lower`/`upper`/`isupper`/whitespace -/

/-- Uppercase/lowercase pairs for the accented letters used by the source
(Portuguese résumé headers). -/
def ptUpperLower : List (Char × Char) :=
  [('À', 'à'), ('Á', 'á'), ('Â', 'â'), ('Ã', 'ã'), ('Ç', 'ç'), ('É', 'é'),
   ('Ê', 'ê'), ('Í', 'í'), ('Ó', 'ó'), ('Ô', 'ô'), ('Õ', 'õ'), ('Ú', 'ú'),
   ('Ü', 'ü')]

def ptLowerUpper : List (Char × Char) := ptUpperLower.map (fun p => (p.2, p.1))

/-- Python `str.lower` on one character (ASCII + Portuguese accents). -/
def lowerChar (c : Char) : Char := (List.lookup c ptUpperLower).getD c.toLower

/-- Python `str.upper` on one character (ASCII + Portuguese accents). -/
def upperChar (c : Char) : Char := (List.lookup c ptLowerUpper).getD c.toUpper

def pyLower (s : String) : String := String.mk (s.data.map lowerChar)

def pyUpper (s : String) : String := String.mk (s.data.map upperChar)

def isUpperChar (c : Char) : Bool :=
  ('A' ≤ c && c ≤ 'Z') || ptUpperLower.any (fun p => p.1 = c)

def isLowerChar (c : Char) : Bool :=
  ('a' ≤ c && c ≤ 'z') || ptUpperLower.any (fun p => p.2 = c)

def isCasedChar (c : Char) : Bool := isUpperChar c || isLowerChar c

/-- Python `str.isupper`: at least one cased character and no lowercase
cased character. -/
def pyIsUpper (s : String) : Bool :=
  s.data.any isCasedChar && s.data.all (fun c => !isLowerChar c)

/-- Python whitespace for `str.strip` and the regex class `\s`
(space, tab, newline, carriage return, vertical tab, form feed). -/
def isPySpace (c : Char) : Bool :=
  c.isWhitespace || c = '\x0b' || c = '\x0c'

/-- Python `str.strip()` with no argument. -/
def pyStrip (s : String) : String :=
  String.mk (((s.data.dropWhile isPySpace).reverse.dropWhile isPySpace).reverse)

/-- Python `str.rstrip(":")`. -/
def rstripColon (s : String) : String :=
  String.mk ((s.data.reverse.dropWhile (fun c => c = ':')).reverse)

/-! ## Substring containment and splitting (Python `in`, `split`) -/

/-- `pat` occurs as a contiguous substring of `cs` (Python `pat in s`). -/
def listContainsSub (pat : List Char) : List Char → Bool
  | [] => pat.isPrefixOf ([] : List Char)
  | c :: rest => pat.isPrefixOf (c :: rest) || listContainsSub pat rest

def strContainsSub (s pat : String) : Bool := listContainsSub pat.data s.data

/-- Characters before the first `:` (Python `s.split(":", 1)[0]`). -/
def beforeColon (cs : List Char) : List Char := cs.takeWhile (fun c => c ≠ ':')

/-- Characters after the first `:` (Python `s.split(":", 1)[1]`). -/
def afterColon (cs : List Char) : List Char := (cs.dropWhile (fun c => c ≠ ':')).drop 1

/-- Python `text.split("\n")`. -/
def splitLinesAux : List Char → List Char → List String
  | [], acc => [String.mk acc.reverse]
  | c :: rest, acc =>
    if c = '\n' then String.mk acc.reverse :: splitLinesAux rest []
    else splitLinesAux rest (c :: acc)

def splitLines (s : String) : List String := splitLinesAux s.data []

/-! ## Sanitizer (`_sanitize_text`)

The Python function folds `str.replace(old, new)` over a fixed table whose
keys are all single characters; `replace` with a one-character needle is a
character-wise substitution. The table below lists the dict's items in
insertion order (the duplicated `‑` key occupies one slot). -/

/-- One pass of Python `text.replace(old, new)` for a single-character `old`. -/
def replace1 (k : Char) (v : List Char) (cs : List Char) : List Char :=
  cs.flatMap (fun c => if c = k then v else [c])

def applyRepls (rs : List (Char × List Char)) (cs : List Char) : List Char :=
  rs.foldl (fun acc p => replace1 p.1 p.2 acc) cs

def replacements : List (Char × List Char) :=
  [('\u2013', ['-']), ('\u2014', ['-']), ('\u2015', ['-']),
   ('\u2018', ['\'']), ('\u2019', ['\'']), ('\u201C', ['"']), ('\u201D', ['"']),
   ('\u2022', ['-']), ('\u2026', ['.', '.', '.']), ('\u00A0', [' ']),
   ('\u200B', []), ('\u00AD', ['-']), ('\uFEFF', []), ('\u2010', ['-']),
   ('\u2011', ['-']), ('\u2012', ['-']), ('\u2500', ['-']), ('\u25AA', ['-']),
   ('\u25BA', ['-']), ('\u25CF', ['-'])]

/-- `_sanitize_text`: replace problematic Unicode characters by ASCII
equivalents. -/
def sanitize_text (s : String) : String := String.mk (applyRepls replacements s.data)

/-! ## Section-header patterns (`_SECTION_PATTERNS`)

Each Python regex is anchored at the start (`re.match`), case-insensitive
(`(?i)`). Matching is performed on the case-folded character list; the
matchers below consume a prefix of the list exactly as the regexes do.
For regexes whose tail is entirely optional (`softwares?…(…)?`,
`links?…(…)?`) a match reduces to the mandatory literal prefix. -/

/-- Consume a literal (already lowercase) from the head of the list. -/
def dropLit (pat : String) (cs : List Char) : Option (List Char) :=
  if pat.data.isPrefixOf cs then some (cs.drop pat.data.length) else none

/-- Consume one character from a character class such as `[eê]`. -/
def dropClass (cls : List Char) : List Char → Option (List Char)
  | [] => none
  | c :: cs => if c ∈ cls then some cs else none

/-- `\s*` (greedy, followed by a non-space token in every pattern). -/
def dropWS (cs : List Char) : List Char := cs.dropWhile isPySpace

/-- `s?` (greedy; in every pattern the following token cannot begin
with `s`, so no backtracking is needed). -/
def dropOptS : List Char → List Char
  | [] => []
  | c :: cs => if c = 's' then cs else c :: cs

/-- `(?i)^resum[o|é]\s*profissional` -/
def matchResumo (cs : List Char) : Bool :=
  ((dropLit "resum" cs).bind (dropClass ['o', '|', 'é']) |>.map dropWS
    |>.bind (dropLit "profissional")).isSome

/-- `(?i)^experi[eê]ncia\s*profissional` -/
def matchExperiencia (cs : List Char) : Bool :=
  ((dropLit "experi" cs).bind (dropClass ['e', 'ê']) |>.bind (dropLit "ncia")
    |>.map dropWS |>.bind (dropLit "profissional")).isSome

/-- `(?i)^forma[çc][aã]o\s*acad[eê]mica` -/
def matchFormacao (cs : List Char) : Bool :=
  ((dropLit "forma" cs).bind (dropClass ['ç', 'c']) |>.bind (dropClass ['a', 'ã'])
    |>.bind (dropLit "o") |>.map dropWS |>.bind (dropLit "acad")
    |>.bind (dropClass ['e', 'ê']) |>.bind (dropLit "mica")).isSome

/-- `(?i)^compet[eê]ncias` -/
def matchCompetencias (cs : List Char) : Bool :=
  ((dropLit "compet" cs).bind (dropClass ['e', 'ê']) |>.bind (dropLit "ncias")).isSome

/-- `(?i)^certifica[çc][oõ]es` -/
def matchCertificacoes (cs : List Char) : Bool :=
  ((dropLit "certifica" cs).bind (dropClass ['ç', 'c']) |>.bind (dropClass ['o', 'õ'])
    |>.bind (dropLit "es")).isSome

/-- `(?i)^informa[çc][oõ]es?\s*(adicionais|pessoais|complementares)` -/
def matchInformacoes (cs : List Char) : Bool :=
  match ((dropLit "informa" cs).bind (dropClass ['ç', 'c'])
      |>.bind (dropClass ['o', 'õ']) |>.bind (dropLit "e")) with
  | none => false
  | some rest =>
    let rest := dropWS (dropOptS rest)
    (dropLit "adicionais" rest).isSome || (dropLit "pessoais" rest).isSome
      || (dropLit "complementares" rest).isSome

/-- `(?i)^refer[eê]ncias` -/
def matchReferencias (cs : List Char) : Bool :=
  ((dropLit "refer" cs).bind (dropClass ['e', 'ê']) |>.bind (dropLit "ncias")).isSome

/-- `(?i)^trabalhos?\s*volunt` -/
def matchTrabalhosVolunt (cs : List Char) : Bool :=
  match dropLit "trabalho" cs with
  | none => false
  | some rest => (dropLit "volunt" (dropWS (dropOptS rest))).isSome

/-- Disjunction of all 17 entries of `_SECTION_PATTERNS`, applied to the
case-folded characters of the candidate title. -/
def matchesSectionPatterns (titlePart : String) : Bool :=
  let cs := titlePart.data.map lowerChar
  matchResumo cs || matchExperiencia cs || matchFormacao cs
    || (dropLit "habilidades" cs).isSome || matchCompetencias cs
    || (dropLit "software" cs).isSome || (dropLit "ferramentas" cs).isSome
    || (dropLit "idiomas" cs).isSome || matchCertificacoes cs
    || (dropLit "cursos" cs).isSome || (dropLit "projetos" cs).isSome
    || (dropLit "objetivo" cs).isSome || matchInformacoes cs
    || (dropLit "link" cs).isSome || matchReferencias cs
    || (dropLit "atividades" cs).isSome || matchTrabalhosVolunt cs

/-! ## Line classifier helpers -/

/-- The title part `_is_section_header` tests: the text before the first
`:` (stripped), with trailing `:` removed. -/
def headerTitlePart (line : String) : String :=
  let stripped := pyStrip line
  let tp :=
    if strContainsSub stripped ":" then pyStrip (String.mk (beforeColon stripped.data))
    else stripped
  rstripColon tp

/-- `_is_section_header`. -/
def is_section_header (line : String) : Bool :=
  let tp := headerTitlePart line
  if tp.data.isEmpty then false
  else if pyIsUpper tp && decide (tp.length < 60) then true
  else matchesSectionPatterns tp

/-- `_extract_section_title`: section title and possible inline content. -/
def extract_section_title (line : String) : String × String :=
  let stripped := pyStrip line
  if strContainsSub stripped ":" then
    let titlePart := pyStrip (String.mk (beforeColon stripped.data))
    let contentPart := pyStrip (String.mk (afterColon stripped.data))
    if contentPart.length > 10 then (titlePart, contentPart)
    else (rstripColon stripped, "")
  else (rstripColon stripped, "")

def bulletMarkers : List Char := ['•', '-', '–', '—', '*', '►', '▪', '●']

/-- `_is_bullet`. -/
def is_bullet (line : String) : Bool :=
  match (pyStrip line).data with
  | [] => false
  | c :: _ => c ∈ bulletMarkers

/-- `_clean_bullet_text`. -/
def clean_bullet_text (line : String) : String :=
  let s := pyStrip line
  match s.data with
  | [] => s
  | c :: rest => if c ∈ bulletMarkers then pyStrip (String.mk rest) else s

def contactKeywords : List String :=
  ["@", "linkedin", "github", "telefone", "tel:", "fone:", "celular"]

/-- `re.search(r"\(\d{2}\)\s*\d{4,5}", line)` tried at one position:
`(`, two digits, `)`, optional whitespace, at least four digits. -/
def matchPhoneAt : List Char → Bool
  | '(' :: d1 :: d2 :: ')' :: rest =>
    d1.isDigit && d2.isDigit && decide (4 ≤ ((dropWS rest).takeWhile Char.isDigit).length)
  | _ => false

def phoneSearch (s : String) : Bool := s.data.tails.any matchPhoneAt

/-- `_is_contact_line`. -/
def is_contact_line (line : String) : Bool :=
  contactKeywords.any (fun kw => strContainsSub (pyLower line) kw) || phoneSearch line

/-! ## Document model and builder (`_parse_resume_sections`) -/

/-- An item inside a section: `{"type": "paragraph"|"bullet"|"job_title"}`. -/
inductive Item where
  | paragraph (text : String)
  | bullet (text : String)
  | job_title (text : String)
deriving DecidableEq, Repr

/-- A top-level block: `{"type": "name"|"contact"|"section"}`. -/
inductive Block where
  | name (content : String)
  | contact (content : String)
  | sectionBlock (title : String) (items : List Item)
deriving DecidableEq, Repr

/-- The absorption condition of the contact loop for a (stripped) line when
`n` lines have been collected so far. The Python loop's `not current_section`
conjunct is always true here: `current_section` is still `None` when the
loop runs. -/
def contactAbsorb (line : String) (n : Nat) : Bool :=
  is_contact_line line
    || (!is_section_header line && decide (n < 3) && !is_bullet line
        && decide (line.length < 120))

/-- The bounded contact-collection loop after the name line. Returns the
collected (stripped) contact lines and the unconsumed remainder. -/
def collectContact : List String → List String → List String × List String
  | [], acc => (acc, [])
  | l :: rest, acc =>
    let line := pyStrip l
    if line.data.isEmpty then collectContact rest acc
    else if contactAbsorb line acc.length then collectContact rest (acc ++ [line])
    else (acc, l :: rest)

/-- The builder's mutable state: completed blocks, plus the currently open
section (the Python `current_section` dict, aliased into the list; here the
open section is kept apart and flushed when closed). -/
def flushCur (done : List Block) : Option (String × List Item) → List Block
  | none => done
  | some (t, its) => done ++ [Block.sectionBlock t its]

/-- One iteration of the main `while idx < len(lines)` loop, on the
stripped line. -/
def stepLine (st : List Block × Option (String × List Item)) (line : String) :
    List Block × Option (String × List Item) :=
  if line.data.isEmpty then st
  else if is_section_header line then
    (flushCur st.1 st.2,
     some ((extract_section_title line).1,
       if (extract_section_title line).2.data.isEmpty then []
       else [Item.paragraph (extract_section_title line).2]))
  else if is_bullet line then
    match st.2 with
    | some (sTitle, its) => (st.1, some (sTitle, its ++ [Item.bullet (clean_bullet_text line)]))
    | none => (st.1, some ("", [Item.bullet (clean_bullet_text line)]))
  else
    match st.2 with
    | some (sTitle, its) =>
      if strContainsSub line "|" && decide (line.length < 120) then
        (st.1, some (sTitle, its ++ [Item.job_title line]))
      else (st.1, some (sTitle, its ++ [Item.paragraph line]))
    | none => (st.1, some ("", [Item.paragraph line]))

/-- One iteration on the raw line (`line = lines[idx].strip()` first). -/
def step (st : List Block × Option (String × List Item)) (rawLine : String) :
    List Block × Option (String × List Item) :=
  stepLine st (pyStrip rawLine)

/-- The `ContactBlock` (if any): collected lines joined with `" | "`. -/
def contactBlocks (cl : List String) : List Block :=
  if cl.isEmpty then [] else [Block.contact (String.intercalate " | " cl)]

/-- The blocks produced by the main loop over the remaining lines. -/
def bodyBlocks (ls : List String) : List Block :=
  flushCur (ls.foldl step ([], none)).1 (ls.foldl step ([], none)).2

/-- `_parse_resume_sections`. -/
def parse_resume_sections (text : String) : List Block :=
  match (splitLines text).dropWhile (fun l => (pyStrip l).data.isEmpty) with
  | [] => []
  | nameLine :: rest =>
    Block.name (pyStrip nameLine) :: contactBlocks (collectContact rest []).1
      ++ bodyBlocks (collectContact rest []).2

/-! ## Layout engine (`generate_resume_pdf`, `_build_skills_table`) -/

def itemText : Item → String
  | .paragraph t => t
  | .bullet t => t
  | .job_title t => t

def isBulletItem : Item → Bool
  | .bullet _ => true
  | _ => false

/-- `texts = [it["text"] for it in items if it.get("text")]`: the item
texts, items with empty text dropped. -/
def skillsTexts (items : List Item) : List String :=
  (items.map itemText).filter (fun t => !t.data.isEmpty)

/-- The two columns before padding: split at `mid = (len(texts)+1)//2`. -/
def skillsColumns (items : List Item) : List String × List String :=
  ((skillsTexts items).take (((skillsTexts items).length + 1) / 2),
   (skillsTexts items).drop (((skillsTexts items).length + 1) / 2))

/-- The `while len(col) < len(other): col.append("")` padding. -/
def padTo (l : List String) (n : Nat) : List String :=
  l ++ List.replicate (n - l.length) ""

/-- The rows of `_build_skills_table` (left cell, right cell): both columns
padded to the longer length, then paired. -/
def build_skills_rows (items : List Item) : List (String × String) :=
  (padTo (skillsColumns items).1
      (max (skillsColumns items).1.length (skillsColumns items).2.length)).zip
    (padTo (skillsColumns items).2
      (max (skillsColumns items).1.length (skillsColumns items).2.length))

def skillsKeywords : List String :=
  ["habilidade", "competência", "competencia", "software", "ferramenta"]

/-- The `is_skills` test of `generate_resume_pdf`: a keyword occurs in
`title.lower()`. -/
def isSkillsTitle (title : String) : Bool :=
  skillsKeywords.any (fun kw => strContainsSub (pyLower title) kw)

/-- `all(it["type"] == "bullet" for it in items) if items else False`. -/
def allBullets : List Item → Bool
  | [] => false
  | its => its.all isBulletItem

/-- A flow element appended to the `story`, by style role. -/
inductive Flow where
  | nameText (s : String)
  | contactText (s : String)
  | spacer
  | sectionHeaderRule (title : String)
  | bulletFlow (s : String)
  | jobTitleFlow (s : String)
  | bodyFlow (s : String)
  | skillsTable (rows : List (String × String))
deriving DecidableEq, Repr

def renderItem : Item → Flow
  | .bullet t => .bulletFlow t
  | .job_title t => .jobTitleFlow t
  | .paragraph t => .bodyFlow t

def isSkillsTableFlow : Flow → Bool
  | .skillsTable _ => true
  | _ => false

/-- The flow elements `generate_resume_pdf` appends for one block
(`SectionHeader.draw` upper-cases the title; the name paragraph is
upper-cased at append time). -/
def renderBlock : Block → List Flow
  | .name c => [Flow.nameText (pyUpper c)]
  | .contact c => [Flow.contactText c, Flow.spacer]
  | .sectionBlock title items =>
    (if title.data.isEmpty then []
     else [Flow.spacer, Flow.sectionHeaderRule (pyUpper title), Flow.spacer])
      ++ (if isSkillsTitle title && allBullets items && decide (4 ≤ items.length) then
            [Flow.skillsTable (build_skills_rows items)]
          else items.map renderItem)

/-! ## Sanitizer lemmas -/

theorem mem_replace1 {c' k : Char} {v cs : List Char} (h : c' ∈ replace1 k v cs) :
    c' ∈ v ∨ c' ∈ cs := by
  rcases List.mem_flatMap.mp h with ⟨a, ha, hc⟩
  by_cases hak : a = k
  · subst hak; rw [if_pos rfl] at hc; exact Or.inl hc
  · rw [if_neg hak] at hc; rcases List.mem_singleton.mp hc with rfl; exact Or.inr ha

theorem replace1_not_mem {k' k : Char} {v cs : List Char} (h1 : k' ∉ cs) (h2 : k' ∉ v) :
    k' ∉ replace1 k v cs := fun h => (mem_replace1 h).elim h2 h1

theorem replace1_self_not_mem {k : Char} {v cs : List Char} (h2 : k ∉ v) :
    k ∉ replace1 k v cs := by
  intro h
  rcases List.mem_flatMap.mp h with ⟨a, ha, hc⟩
  by_cases hak : a = k
  · subst hak; rw [if_pos rfl] at hc; exact h2 hc
  · rw [if_neg hak] at hc; exact hak (List.mem_singleton.mp hc).symm

theorem replace1_eq_of_not_mem {k : Char} {v cs : List Char} (h : k ∉ cs) :
    replace1 k v cs = cs := by
  induction cs with
  | nil => rfl
  | cons c cs ih =>
    have hck : ¬(c = k) := fun e => h (by simp [e])
    have htail : k ∉ cs := fun m => h (List.mem_cons_of_mem _ m)
    simp only [replace1, List.flatMap_cons, if_neg hck, List.singleton_append]
    exact congrArg (List.cons c) (ih htail)

theorem applyRepls_not_mem_of {k : Char} :
    ∀ (rs : List (Char × List Char)) (cs : List Char), k ∉ cs →
      (∀ p ∈ rs, k ∉ p.2) → k ∉ applyRepls rs cs
  | [], _, hk, _ => hk
  | p :: rs, cs, hk, hv =>
    applyRepls_not_mem_of rs (replace1 p.1 p.2 cs)
      (replace1_not_mem hk (hv p (List.mem_cons_self p rs)))
      (fun q hq => hv q (List.mem_cons_of_mem p hq))

theorem applyRepls_key_not_mem :
    ∀ (rs : List (Char × List Char)), (∀ p ∈ rs, ∀ q ∈ rs, p.1 ∉ q.2) →
      ∀ (cs : List Char) (p : Char × List Char), p ∈ rs → p.1 ∉ applyRepls rs cs := by
  intro rs
  induction rs with
  | nil => intro _ _ p hp; exact absurd hp (List.not_mem_nil p)
  | cons r rs ih =>
    intro H cs p hp
    show p.1 ∉ applyRepls rs (replace1 r.1 r.2 cs)
    rcases List.mem_cons.mp hp with rfl | hp'
    · have hrr : p.1 ∉ p.2 := H p (List.mem_cons_self _ _) p (List.mem_cons_self _ _)
      exact applyRepls_not_mem_of rs _ (replace1_self_not_mem hrr)
        (fun q hq => H p (List.mem_cons_self _ _) q (List.mem_cons_of_mem _ hq))
    · exact ih (fun a ha b hb => H a (List.mem_cons_of_mem _ ha) b (List.mem_cons_of_mem _ hb))
        (replace1 r.1 r.2 cs) p hp'

theorem applyRepls_eq_of_keys_not_mem :
    ∀ (rs : List (Char × List Char)) (cs : List Char), (∀ p ∈ rs, p.1 ∉ cs) →
      applyRepls rs cs = cs
  | [], _, _ => rfl
  | r :: rs, cs, h => by
    show applyRepls rs (replace1 r.1 r.2 cs) = cs
    rw [replace1_eq_of_not_mem (h r (List.mem_cons_self _ _))]
    exact applyRepls_eq_of_keys_not_mem rs cs (fun p hp => h p (List.mem_cons_of_mem _ hp))

set_option maxHeartbeats 2000000 in
/-- No replacement value contains any replacement key: the sanitizer's
output never re-introduces a character it removes. -/
theorem sanitizeValuesKeyFree : ∀ p ∈ replacements, ∀ q ∈ replacements, p.1 ∉ q.2 := by
  decide

/-- Idempotence of a replacement table none of whose values contains a key. -/
theorem applyRepls_idem (rs : List (Char × List Char))
    (H : ∀ p ∈ rs, ∀ q ∈ rs, p.1 ∉ q.2) (cs : List Char) :
    applyRepls rs (applyRepls rs cs) = applyRepls rs cs :=
  applyRepls_eq_of_keys_not_mem rs _ (fun p hp => applyRepls_key_not_mem rs H cs p hp)

theorem sanitize_text_data (s : String) :
    (sanitize_text s).data = applyRepls replacements s.data := by
  simp only [sanitize_text]

/-- C4 (confirmed): the sanitizer is idempotent: for every string `x`,
`sanitize_text (sanitize_text x) = sanitize_text x`. -/
theorem c4_sanitize_idempotent (x : String) :
    sanitize_text (sanitize_text x) = sanitize_text x := by
  apply String.ext
  rw [sanitize_text_data, sanitize_text_data]
  exact applyRepls_idem replacements sanitizeValuesKeyFree x.data

/-! ## Contact-absorption lemmas (C1) -/

theorem contactAbsorb_nonContact {line : String} {n : Nat}
    (h : contactAbsorb line n = true) (hc : is_contact_line line = false) : n < 3 := by
  simp only [contactAbsorb, hc, Bool.false_or, Bool.and_eq_true, decide_eq_true_eq] at h
  exact h.1.1.2

/-- Through the contact loop, the number of collected lines that are not
contact lines never exceeds `max (count in acc) 3`: a non-contact line is
only absorbed while fewer than 3 lines have been collected. -/
theorem collectContact_nonContact_le :
    ∀ (lines acc : List String),
      ((collectContact lines acc).1.filter (fun l => !is_contact_line l)).length
        ≤ max ((acc.filter (fun l => !is_contact_line l)).length) 3 := by
  intro lines
  induction lines with
  | nil => intro acc; exact le_max_left _ _
  | cons l rest ih =>
    intro acc
    by_cases h0 : (pyStrip l).data.isEmpty
    · simpa only [collectContact, h0, if_true] using ih acc
    · by_cases h1 : contactAbsorb (pyStrip l) acc.length
      · have hstep :
            (collectContact (l :: rest) acc).1 = (collectContact rest (acc ++ [pyStrip l])).1 := by
          simp only [collectContact, h0, h1, if_true, if_false, Bool.false_eq_true]
        rw [hstep]
        refine le_trans (ih (acc ++ [pyStrip l])) ?_
        by_cases hc : is_contact_line (pyStrip l)
        · rw [List.filter_append]
          simp [hc]
        · have hn : acc.length < 3 :=
            contactAbsorb_nonContact h1 (by simpa using hc)
          have hfl : (acc.filter (fun l => !is_contact_line l)).length ≤ acc.length :=
            List.length_filter_le _ _
          have hgrow :
              ((acc ++ [pyStrip l]).filter (fun l => !is_contact_line l)).length ≤ 3 := by
            rw [List.filter_append]
            simp only [List.length_append]
            have : ([pyStrip l].filter (fun l => !is_contact_line l)).length ≤ 1 :=
              List.length_filter_le _ _
            omega
          calc max ((acc ++ [pyStrip l]).filter (fun l => !is_contact_line l)).length 3
              = 3 := by omega
            _ ≤ max ((acc.filter (fun l => !is_contact_line l)).length) 3 := le_max_right _ _
      · have hstep : (collectContact (l :: rest) acc).1 = acc := by
          simp only [collectContact, h0, h1, if_false, Bool.false_eq_true]
        rw [hstep]
        exact le_max_left _ _

def isContactB : Block → Bool
  | .contact _ => true
  | _ => false

def isSectionB : Block → Bool
  | .sectionBlock _ _ => true
  | _ => false

theorem flushCur_noContact {done : List Block} {cur : Option (String × List Item)}
    (h : done.all (fun b => !isContactB b) = true) :
    (flushCur done cur).all (fun b => !isContactB b) = true := by
  cases cur with
  | none => exact h
  | some p =>
    cases p with
    | mk t its =>
      simp only [flushCur, List.all_append, h, Bool.true_and]
      rfl

theorem step_fst (st : List Block × Option (String × List Item)) (l : String) :
    (step st l).1 = st.1 ∨ (step st l).1 = flushCur st.1 st.2 := by
  obtain ⟨done, cur⟩ := st
  cases cur with
  | none =>
    unfold step stepLine
    repeat' split
    all_goals first | exact Or.inl rfl | exact Or.inr rfl
  | some p =>
    obtain ⟨t, its⟩ := p
    unfold step stepLine
    repeat' split
    all_goals first | exact Or.inl rfl | exact Or.inr rfl

theorem foldl_step_noContact :
    ∀ (lines : List String) (st : List Block × Option (String × List Item)),
      st.1.all (fun b => !isContactB b) = true →
      ((lines.foldl step st).1).all (fun b => !isContactB b) = true
  | [], _, h => h
  | l :: rest, st, h =>
    foldl_step_noContact rest (step st l) (by
      rcases step_fst st l with he | he
      · rw [he]; exact h
      · rw [he]; exact flushCur_noContact h)

theorem bodyBlocks_noContact (ls : List String) :
    (bodyBlocks ls).all (fun b => !isContactB b) = true :=
  flushCur_noContact (foldl_step_noContact ls ([], none) rfl)

theorem contactBlocks_length (cl : List String) : (contactBlocks cl).length ≤ 1 := by
  unfold contactBlocks
  split <;> simp

theorem contactBlocks_noSection (cl : List String) :
    (contactBlocks cl).all (fun b => !isSectionB b) = true := by
  unfold contactBlocks
  split <;> simp [isSectionB]

/-- C1 (counterexample): four consecutive contact-detected lines are all
merged into the `ContactBlock`: the 3-line bound does not apply to lines
that `_is_contact_line` accepts. -/
theorem c1_counterexample :
    parse_resume_sections "John Doe\na@a\nb@b\nc@c\nd@d" =
      [Block.name "John Doe", Block.contact "a@a | b@b | c@c | d@d"]
  ∧ (collectContact ["a@a", "b@b", "c@c", "d@d"] []).1.length = 4
  ∧ (["a@a", "b@b", "c@c", "d@d"].all is_contact_line) = true
  ∧ decide ((collectContact ["a@a", "b@b", "c@c", "d@d"] []).1.length ≤ 3) = false := by
  decide

/-- C1 (corrected): at most 3 lines NOT detected as contact lines are ever
merged into the `ContactBlock`; lines detected as contact lines are merged
without bound. Absorption occurs only before the first `SectionBlock`:
the parse output is a prefix of at most 2 blocks (name, contact) holding
no `SectionBlock`, followed by body blocks holding no `ContactBlock`. -/
theorem c1_contact_absorption (lines : List String) (text : String) :
    ((collectContact lines []).1.filter (fun l => !is_contact_line l)).length ≤ 3
  ∧ ∃ pre post : List Block,
      parse_resume_sections text = pre ++ post
      ∧ pre.length ≤ 2
      ∧ pre.all (fun b => !isSectionB b) = true
      ∧ post.all (fun b => !isContactB b) = true := by
  constructor
  · simpa using collectContact_nonContact_le lines []
  · unfold parse_resume_sections
    cases hd : (splitLines text).dropWhile (fun l => (pyStrip l).data.isEmpty) with
    | nil => exact ⟨[], [], rfl, by simp, rfl, rfl⟩
    | cons nameLine rest =>
      refine ⟨Block.name (pyStrip nameLine) :: contactBlocks (collectContact rest []).1,
        bodyBlocks (collectContact rest []).2, rfl, ?_, ?_, bodyBlocks_noContact _⟩
      · have := contactBlocks_length (collectContact rest []).1
        simp only [List.length_cons]
        omega
      · simp only [List.all_cons, Bool.and_eq_true]
        exact ⟨rfl, contactBlocks_noSection _⟩

/-! ## Totality and scenarios (C5, C2, C7, C8) -/

/-- C5 (confirmed): the classifier/builder is a total function: it is
defined (without `partial`) for every string, yields `[]` on `""`, and on
any input yields either no blocks (all lines blank) or a document headed
by a `NameBlock`. -/
theorem c5_totality :
    parse_resume_sections "" = []
  ∧ ∀ text : String, parse_resume_sections text = []
      ∨ ∃ s rest, parse_resume_sections text = Block.name s :: rest := by
  refine ⟨by decide, fun text => ?_⟩
  unfold parse_resume_sections
  cases hd : (splitLines text).dropWhile (fun l => (pyStrip l).data.isEmpty) with
  | nil => exact Or.inl rfl
  | cons nameLine rest => exact Or.inr ⟨pyStrip nameLine, _, rfl⟩

/-- C2 (confirmed): scenario 1 of the spec, exactly as stated. -/
theorem c2_scenario1 :
    parse_resume_sections "John Doe\njohn@mail.com\nEXPERIENCE\n- Built X\n- Built Y" =
      [Block.name "John Doe", Block.contact "john@mail.com",
       Block.sectionBlock "EXPERIENCE" [Item.bullet "Built X", Item.bullet "Built Y"]] := by
  decide

/-- C7 (counterexample): `"Skills: Python, Go, Rust, C++, Java"` is NOT
classified as a section header (its title part `"Skills"` is neither
upper-case nor a curated pattern), so it never yields a
`SectionBlock(title="Skills", ...)`: in a body position it becomes a
`Paragraph` item of the current section. -/
theorem c7_counterexample :
    is_section_header "Skills: Python, Go, Rust, C++, Java" = false
  ∧ parse_resume_sections "John Doe\nx@mail.com\nEXPERIENCE\nSkills: Python, Go, Rust, C++, Java" =
      [Block.name "John Doe", Block.contact "x@mail.com",
       Block.sectionBlock "EXPERIENCE" [Item.paragraph "Skills: Python, Go, Rust, C++, Java"]] := by
  decide

/-- C7 (corrected): for a header line the code recognizes (here the curated
Portuguese name `"Habilidades"`), colon plus >10 characters of trailing
content yields the title before `:` and one inline `Paragraph` item. -/
theorem c7_inline_content :
    parse_resume_sections "John Doe\nx@mail.com\nHabilidades: Python, Go, Rust, C++, Java" =
      [Block.name "John Doe", Block.contact "x@mail.com",
       Block.sectionBlock "Habilidades" [Item.paragraph "Python, Go, Rust, C++, Java"]]
  ∧ extract_section_title "Habilidades: Python, Go, Rust, C++, Java" =
      ("Habilidades", "Python, Go, Rust, C++, Java")
  ∧ decide (10 < ("Python, Go, Rust, C++, Java" : String).length) = true := by
  decide

/-- C8 (confirmed): a bullet line appearing before any header opens an
implicit `SectionBlock` with empty title holding the bullet. -/
theorem c8_scenario3 :
    parse_resume_sections "John Doe\n- Led a team" =
      [Block.name "John Doe", Block.sectionBlock "" [Item.bullet "Led a team"]] := by
  decide

/-! ## Header-detection rule (C6) -/

/-- C6 (counterexample): the spec's English section names are not in the
code's curated pattern set: lower-case `"experience"`, `"education"`,
`"skills"`, `"volunteer work"` are not recognized as headers. -/
theorem c6_counterexample :
    is_section_header "experience" = false
  ∧ is_section_header "education" = false
  ∧ is_section_header "skills" = false
  ∧ is_section_header "volunteer work" = false := by
  decide

/-- C6 (corrected): a line is a section header iff, after taking the part
before `:` (stripped, trailing `:` removed), the remaining title is
non-empty and either is entirely upper-case and shorter than 60 characters,
or matches the curated pattern set — which holds the Portuguese canonical
names (resumo/experiência profissional, formação acadêmica, habilidades,
competências, softwares/ferramentas, idiomas, certificações, cursos,
projetos, objetivo, informações adicionais/pessoais/complementares, links,
referências, atividades, trabalhos voluntários), case-insensitively and
tolerating the listed accent variants. -/
theorem c6_header_rule (line : String) :
    (is_section_header line = true ↔
      ((headerTitlePart line).data.isEmpty = false
        ∧ ((pyIsUpper (headerTitlePart line) = true ∧ (headerTitlePart line).length < 60)
            ∨ matchesSectionPatterns (headerTitlePart line) = true)))
  ∧ is_section_header "EXPERIÊNCIA PROFISSIONAL" = true
  ∧ is_section_header "Experiência Profissional" = true
  ∧ is_section_header "experiência profissional" = true
  ∧ is_section_header "Experiencia Profissional" = true
  ∧ is_section_header "Formação Acadêmica" = true
  ∧ is_section_header "Habilidades:" = true
  ∧ is_section_header "OBJETIVO" = true := by
  refine ⟨?_, by decide, by decide, by decide, by decide, by decide, by decide, by decide⟩
  unfold is_section_header
  by_cases hL : (headerTitlePart line).length < 60 <;>
    cases hE : (headerTitlePart line).data.isEmpty <;>
    cases hU : pyIsUpper (headerTitlePart line) <;>
    cases hM : matchesSectionPatterns (headerTitlePart line) <;>
    simp [hE, hU, hM, hL]

/-! ## Two-column layout decision (C9) -/

theorem renderItems_no_table (its : List Item) :
    (its.map renderItem).any isSkillsTableFlow = false := by
  induction its with
  | nil => rfl
  | cons it rest ih => cases it <;> simp [renderItem, isSkillsTableFlow, ih]

/-- C9 (confirmed): a section renders as a two-column table iff its title
matches the skills/competencies/tools keyword set AND every item is a
bullet AND there are at least 4 items; with exactly 3 bullets a skills
section renders as a vertical list of bullet flows. -/
theorem c9_two_column_rule (title : String) (items : List Item) :
    ((renderBlock (Block.sectionBlock title items)).any isSkillsTableFlow
      = (isSkillsTitle title && allBullets items && decide (4 ≤ items.length)))
  ∧ renderBlock (Block.sectionBlock "Habilidades"
        [Item.bullet "Git", Item.bullet "Docker", Item.bullet "SQL"]) =
      [Flow.spacer, Flow.sectionHeaderRule "HABILIDADES", Flow.spacer,
       Flow.bulletFlow "Git", Flow.bulletFlow "Docker", Flow.bulletFlow "SQL"] := by
  refine ⟨?_, by decide⟩
  unfold renderBlock
  rw [List.any_append]
  cases hC : isSkillsTitle title && allBullets items && decide (4 ≤ items.length) <;>
    cases hT : title.data.isEmpty <;>
    simp [hC, hT, renderItems_no_table, isSkillsTableFlow]

/-! ## Skills-table split (C10, C3) -/

theorem filter_replicate_empty (k : Nat) :
    (List.replicate k ("" : String)).filter (fun t => !t.data.isEmpty) = [] := by
  induction k with
  | zero => rfl
  | succ k ih => simp [List.replicate_succ, List.filter_cons, ih]

theorem skillsTexts_nonempty (items : List Item) :
    ∀ x ∈ skillsTexts items, (!x.data.isEmpty) = true := by
  intro x hx
  unfold skillsTexts at hx
  exact (List.mem_filter.mp hx).2

/-- C10 (confirmed): in the two-column build, items with empty text are
dropped before the split: the table's row count is `⌈m/2⌉` where `m`
counts only the items with non-empty text, the cells (empty padding
removed) are exactly those texts in column order, and with items
`["", "a", "b"]` the table has 1 row, not `⌈3/2⌉ = 2`. -/
theorem c10_empty_texts_dropped (items : List Item) :
    (build_skills_rows items).length = ((skillsTexts items).length + 1) / 2
  ∧ ((build_skills_rows items).map Prod.fst).filter (fun t => !t.data.isEmpty)
      ++ ((build_skills_rows items).map Prod.snd).filter (fun t => !t.data.isEmpty)
      = skillsTexts items
  ∧ skillsTexts items = (items.map itemText).filter (fun t => !t.data.isEmpty)
  ∧ (build_skills_rows [Item.bullet "", Item.bullet "a", Item.bullet "b"]).length = 1 := by
  have hT := skillsTexts_nonempty items
  have hmid : ((skillsTexts items).length + 1) / 2 ≤ (skillsTexts items).length := by
    omega
  have h1 : ((skillsTexts items).take (((skillsTexts items).length + 1) / 2)).length
      = ((skillsTexts items).length + 1) / 2 := by
    rw [List.length_take]
    omega
  have h2 : ((skillsTexts items).drop (((skillsTexts items).length + 1) / 2)).length
      = (skillsTexts items).length - ((skillsTexts items).length + 1) / 2 := by
    rw [List.length_drop]
  have hmax : max ((skillsColumns items).1.length) ((skillsColumns items).2.length)
      = ((skillsTexts items).length + 1) / 2 := by
    simp only [skillsColumns, h1, h2]
    omega
  have hp1 : padTo (skillsColumns items).1
      (max ((skillsColumns items).1.length) ((skillsColumns items).2.length))
      = (skillsColumns items).1 := by
    rw [hmax]
    unfold padTo
    simp only [skillsColumns, h1]
    simp
  have hp2len : (padTo (skillsColumns items).2
      (max ((skillsColumns items).1.length) ((skillsColumns items).2.length))).length
      = ((skillsTexts items).length + 1) / 2 := by
    rw [hmax]
    unfold padTo
    rw [List.length_append, List.length_replicate]
    simp only [skillsColumns, h2]
    omega
  have hp1len : (padTo (skillsColumns items).1
      (max ((skillsColumns items).1.length) ((skillsColumns items).2.length))).length
      = ((skillsTexts items).length + 1) / 2 := by
    rw [hp1]
    simp only [skillsColumns, h1]
  refine ⟨?_, ?_, rfl, by decide⟩
  · unfold build_skills_rows
    rw [List.length_zip, hp1len, hp2len]
    omega
  · unfold build_skills_rows
    rw [List.map_fst_zip _ _ (by rw [hp1len, hp2len]),
        List.map_snd_zip _ _ (by rw [hp1len, hp2len])]
    rw [hp1]
    unfold padTo
    rw [List.filter_append, filter_replicate_empty, List.append_nil]
    have hf1 : ((skillsColumns items).1).filter (fun t => !t.data.isEmpty)
        = (skillsColumns items).1 :=
      List.filter_eq_self.mpr (fun a ha => hT a (List.take_subset _ _ ha))
    have hf2 : ((skillsColumns items).2).filter (fun t => !t.data.isEmpty)
        = (skillsColumns items).2 :=
      List.filter_eq_self.mpr (fun a ha => hT a (List.drop_subset _ _ ha))
    rw [hf1, hf2]
    simp only [skillsColumns]
    exact List.take_append_drop _ _

/-- C3 (counterexample): a skills section of 4 bullet items, one with empty
text, renders in two-column layout, yet column B has length 1 ≠ ⌊4/2⌋ and
the concatenated columns do not reproduce the 4-item text sequence: the
split law holds for the non-empty texts, not for the raw item count. -/
theorem c3_counterexample :
    isSkillsTitle "Habilidades" = true
  ∧ allBullets [Item.bullet "", Item.bullet "Git", Item.bullet "Docker", Item.bullet "SQL"] = true
  ∧ [Item.bullet "", Item.bullet "Git", Item.bullet "Docker", Item.bullet "SQL"].length = 4
  ∧ (skillsColumns [Item.bullet "", Item.bullet "Git", Item.bullet "Docker",
      Item.bullet "SQL"]).2.length = 1
  ∧ decide ((skillsColumns [Item.bullet "", Item.bullet "Git", Item.bullet "Docker",
      Item.bullet "SQL"]).2.length = 4 / 2) = false
  ∧ decide ((skillsColumns [Item.bullet "", Item.bullet "Git", Item.bullet "Docker",
        Item.bullet "SQL"]).1
      ++ (skillsColumns [Item.bullet "", Item.bullet "Git", Item.bullet "Docker",
        Item.bullet "SQL"]).2
      = [Item.bullet "", Item.bullet "Git", Item.bullet "Docker",
          Item.bullet "SQL"].map itemText) = false := by
  decide

/-- C3 (corrected): for a skills section all of whose `n` items have
non-empty text, column A has length `⌈n/2⌉`, column B has length `⌊n/2⌋`
(before padding), and column A followed by column B reproduces the
original item order. -/
theorem c3_balancing (items : List Item)
    (h : items.all (fun it => !(itemText it).data.isEmpty) = true) :
    (skillsColumns items).1.length = (items.length + 1) / 2
  ∧ (skillsColumns items).2.length = items.length / 2
  ∧ (skillsColumns items).1 ++ (skillsColumns items).2 = items.map itemText := by
  have htexts : skillsTexts items = items.map itemText := by
    unfold skillsTexts
    refine List.filter_eq_self.mpr ?_
    intro a ha
    rcases List.mem_map.mp ha with ⟨it, hit, rfl⟩
    exact List.all_eq_true.mp h it hit
  have hlen : (skillsTexts items).length = items.length := by
    rw [htexts, List.length_map]
  refine ⟨?_, ?_, ?_⟩
  · simp only [skillsColumns, List.length_take, hlen]
    omega
  · simp only [skillsColumns, List.length_drop, hlen]
    omega
  · simp only [skillsColumns, hlen, ← htexts]
    exact List.take_append_drop _ _

/-- Witness for `c3_balancing` at a concrete 3-bullet section. -/
theorem c3_balancing_witness :
    ([Item.bullet "Git", Item.bullet "Docker", Item.bullet "SQL"].all
        (fun it => !(itemText it).data.isEmpty) = true)
  ∧ ((skillsColumns [Item.bullet "Git", Item.bullet "Docker", Item.bullet "SQL"]).1.length
        = ([Item.bullet "Git", Item.bullet "Docker", Item.bullet "SQL"].length + 1) / 2
     ∧ (skillsColumns [Item.bullet "Git", Item.bullet "Docker", Item.bullet "SQL"]).2.length
        = [Item.bullet "Git", Item.bullet "Docker", Item.bullet "SQL"].length / 2
     ∧ (skillsColumns [Item.bullet "Git", Item.bullet "Docker", Item.bullet "SQL"]).1
        ++ (skillsColumns [Item.bullet "Git", Item.bullet "Docker", Item.bullet "SQL"]).2
        = [Item.bullet "Git", Item.bullet "Docker", Item.bullet "SQL"].map itemText) :=
  ⟨by decide, c3_balancing _ (by decide)⟩

end ResumeAI
